import Mathlib

/-!
Verification of the `useTransitionState` React hook
(src/useTransitionState.ts) against its natural-language specification.

The development has two parts:

* a shallow embedding of the pure effect resolver (`PRESETS`,
  `getEffectConfig`), and
* an executable operational model of the hook's runtime behaviour:
  React renders/commits, the two `useState` cells (`isVisible`,
  `shouldRender`), the `useEffect`/`useLayoutEffect` pair with their
  dependency arrays and cleanups, the `isMountedRef` liveness flag,
  the element ref (`NodeBinding`), `setTimeout`/`clearTimeout` timers
  and the `requestAnimationFrame` chain.

The model is driven by a list of timestamped external stimuli
(setter calls, paint frames, teardown) and produces the ordered list
of observable events: lifecycle callbacks and inline-style mutations.
-/

namespace UseTransition

/-! ## Effect resolver (lines 37-50 and 81-86 of the source) -/

/-- A CSS property bag (`CSSProperties`), as an association list. -/
abbrev StyleBag := List (String × String)

/-- A runtime keyframes object.  The TypeScript type `AnimationKeyframes`
declares both fields, but at runtime an arbitrary object can be passed,
so each field is optional here to model shape-malformed values. -/
structure KeyframesObj where
  fromStyle : Option StyleBag
  toStyle : Option StyleBag
deriving DecidableEq, Repr

/-- The runtime value of the `effect` option: a string selector or an
object (`TransitionEffect = TransitionEffectType | AnimationKeyframes`). -/
inductive EffectValue where
  | str (s : String)
  | obj (o : KeyframesObj)
deriving DecidableEq, Repr

/-- `PRESETS` record from the source, lines 37-50. -/
def fadeKf : KeyframesObj :=
  ⟨some [("opacity", "0")], some [("opacity", "1")]⟩

def slideKf : KeyframesObj :=
  ⟨some [("transform", "translateY(-20px)"), ("opacity", "0")],
   some [("transform", "translateY(0)"), ("opacity", "1")]⟩

def zoomKf : KeyframesObj :=
  ⟨some [("transform", "scale(0.95)"), ("opacity", "0")],
   some [("transform", "scale(1)"), ("opacity", "1")]⟩

def PRESETS : List (String × KeyframesObj) :=
  [("fade", fadeKf), ("slide", slideKf), ("zoom", zoomKf)]

/-- `getEffectConfig` (source lines 81-86):
`typeof effect === "string" ? (PRESETS[effect] || PRESETS.fade) : effect`.
A string selector is looked up in the record, falling back to the fade
preset when the key is absent; any non-string value is returned as-is. -/
def getEffectConfig (effect : EffectValue) : KeyframesObj :=
  match effect with
  | .str s => (PRESETS.lookup s).getD fadeKf
  | .obj o => o

/-- `Object.assign(el.style, bag)` with `bag` possibly `undefined`
(a missing keyframes field): assigning `undefined` mutates nothing. -/
def bagProps (b : Option StyleBag) : StyleBag := b.getD []

/-! ## Operational model of the hook -/

/-- The per-instance configuration: the destructured `options` (with the
source defaults) plus whether the caller attaches the returned ref to the
rendered element (`bindRef = false` models omitting the binding). -/
structure HookConfig where
  duration : Nat
  effect : EffectValue
  timingFunction : String
  bindRef : Bool
deriving DecidableEq, Repr

/-- Value of the `style.transition` shorthand: `"none"` or
`all {duration}ms {timingFunction}`. -/
inductive TransitionV where
  | noneV
  | allV (ms : Nat) (tf : String)
deriving DecidableEq, Repr

/-- Observable events, each tagged with the virtual time (ms) at which it
happened: the four lifecycle callbacks, writes of the `transition`
shorthand, and `applyStyle` property assignments on the bound node. -/
inductive Event where
  | onEnter (t : Nat)
  | onEntered (t : Nat)
  | onExit (t : Nat)
  | onExited (t : Nat)
  | setTransition (t : Nat) (v : TransitionV)
  | applyStyleEv (t : Nat) (props : StyleBag)
deriving DecidableEq, Repr

/-- The two callbacks of the enter path's `requestAnimationFrame` chain
(source lines 129-140): the outer callback only schedules the inner one;
the inner one commits the `to` style and schedules the `onEntered` timer. -/
inductive RafCb where
  | chainStart
  | chainEnd
deriving DecidableEq, Repr

/-- Which `setTimeout` a pending timer is: the exit timer (line 112) or
the `onEntered` timer (line 136). -/
inductive TimerKind where
  | exitT
  | enteredT
deriving DecidableEq, Repr

/-- A pending `setTimeout`: its id (as returned by `setTimeout`, used by
`clearTimeout`), absolute fire time, and which callback body it runs. -/
structure PTimer where
  id : Nat
  fireAt : Nat
  kind : TimerKind
deriving DecidableEq, Repr

/-- The whole runtime state of one hook instance: virtual clock, whether
the component is still mounted, the two `useState` cells, the
`isMountedRef` liveness ref, whether `elementRef.current` is non-null,
the bookkeeping React keeps for each effect (last dependency values,
stored cleanup), pending timers, the pending `requestAnimationFrame`
queue, and the trace of observable events so far. -/
structure HState where
  time : Nat
  mounted : Bool
  isVisible : Bool
  shouldRender : Bool
  isMounted : Bool
  elementBound : Bool
  mountEffectRan : Bool
  prevVisDeps : Option Bool
  prevLayoutDeps : Option (Bool × Bool)
  passiveCleanup : Option Nat
  tasks : List PTimer
  rafq : List RafCb
  nextId : Nat
  events : List Event
deriving DecidableEq, Repr

/-- Append one observable event to the trace. -/
def emit (e : Event) (s : HState) : HState :=
  { s with events := s.events ++ [e] }

/-- React commit: the conditionally-rendered element exists iff
`shouldRender`; React sets/clears `elementRef.current` accordingly
(only when the caller attached the ref). -/
def commit (c : HookConfig) (s : HState) : HState :=
  { s with elementBound := s.shouldRender && c.bindRef }

/-- The `useIsomorphicLayoutEffect` body (source lines 122-142), run when
its deps `[shouldRender, isVisible]` changed since the last run: when
visible, rendered and bound, disable the transition, apply the resolved
`from` style and schedule the frame-callback chain.  It returns no
cleanup. -/
def runLayoutEffect (c : HookConfig) (s : HState) : HState :=
  let deps := (s.shouldRender, s.isVisible)
  if s.prevLayoutDeps = some deps then s
  else
    let s := { s with prevLayoutDeps := some deps }
    if s.isVisible && s.shouldRender && s.elementBound then
      let kf := getEffectConfig c.effect
      let s := emit (.setTransition s.time .noneV) s
      let s := emit (.applyStyleEv s.time (bagProps kf.fromStyle)) s
      { s with rafq := s.rafq ++ [.chainStart] }
    else s

/-- The mount effect (source lines 74-79, deps `[]`): sets the liveness
ref true on mount; its cleanup clears it on unmount. -/
def runMountEffect (s : HState) : HState :=
  if s.mountEffectRan then s
  else { s with mountEffectRan := true, isMounted := true }

/-- The visibility `useEffect` body (source lines 94-120), run when its
deps `[isVisible, duration, effect, timingFunction]` changed (only
`isVisible` ever changes in a run).  React first invokes the cleanup
stored by the previous run (`clearTimeout(timer)`), then the body:
enter branch fires `onEnter` and sets `shouldRender`; exit branch fires
`onExit`, applies the collapsed style when a node is bound, and
schedules the exit timer (its id becomes the new stored cleanup). -/
def runVisEffect (c : HookConfig) (s : HState) : HState :=
  if s.prevVisDeps = some s.isVisible then s
  else
    let s := { s with prevVisDeps := some s.isVisible }
    let s :=
      match s.passiveCleanup with
      | some tid =>
          { s with tasks := s.tasks.filter (fun tm => tm.id ≠ tid),
                   passiveCleanup := none }
      | none => s
    if s.isVisible then
      let s := emit (.onEnter s.time) s
      { s with shouldRender := true }
    else if !s.shouldRender then s
    else
      let s := emit (.onExit s.time) s
      let kf := getEffectConfig c.effect
      let s :=
        if s.elementBound then
          emit (.applyStyleEv s.time (bagProps kf.fromStyle))
            (emit (.setTransition s.time (.allV c.duration c.timingFunction)) s)
        else s
      let tm : PTimer := ⟨s.nextId, s.time + c.duration, .exitT⟩
      { s with tasks := s.tasks ++ [tm], nextId := s.nextId + 1,
               passiveCleanup := some tm.id }

/-- One render-commit-effects pass. -/
def renderOnce (c : HookConfig) (s : HState) : HState :=
  runVisEffect c (runMountEffect (runLayoutEffect c (commit c s)))

/-- Re-render while effects keep changing state (`setShouldRender` inside
an effect schedules another render); at most two passes are ever needed,
the fuel is a safe bound. -/
def doRender (c : HookConfig) : Nat → HState → HState
  | 0, s => s
  | fuel + 1, s =>
      let s2 := renderOnce c s
      if s2.shouldRender = s.shouldRender then s2
      else doRender c fuel s2

def render (c : HookConfig) (s : HState) : HState :=
  doRender c 3 s

/-- The public setter `setIsVisible b`: updates the state cell and lets
React re-render (a no-op once the component is unmounted). -/
def doSet (c : HookConfig) (b : Bool) (s : HState) : HState :=
  if s.mounted then render c { s with isVisible := b } else s

/-- Run one pending `requestAnimationFrame` callback. -/
def runRafCb (c : HookConfig) (cb : RafCb) (s : HState) : HState :=
  match cb with
  | .chainStart => { s with rafq := s.rafq ++ [.chainEnd] }
  | .chainEnd =>
      if !s.elementBound then s
      else
        let kf := getEffectConfig c.effect
        let s := emit (.setTransition s.time (.allV c.duration c.timingFunction)) s
        let s := emit (.applyStyleEv s.time (bagProps kf.toStyle)) s
        let tm : PTimer := ⟨s.nextId, s.time + c.duration, .enteredT⟩
        { s with tasks := s.tasks ++ [tm], nextId := s.nextId + 1 }

/-- A paint opportunity: the callbacks currently queued run in order;
callbacks they register (the chained inner frame) run at the next frame. -/
def doFrame (c : HookConfig) (s : HState) : HState :=
  let q := s.rafq
  ({ s with rafq := [] } : HState) |> fun s0 =>
    q.foldl (fun acc cb => runRafCb c cb acc) s0

/-- Teardown of the owning instance: React clears the ref, runs the mount
effect's cleanup (`isMountedRef.current = false`) and the visibility
effect's stored cleanup (`clearTimeout`); the layout effect registered no
cleanup.  Idempotent. -/
def doUnmount (s : HState) : HState :=
  if !s.mounted then s
  else
    let s := { s with elementBound := false, isMounted := false }
    let s :=
      match s.passiveCleanup with
      | some tid =>
          { s with tasks := s.tasks.filter (fun tm => tm.id ≠ tid),
                   passiveCleanup := none }
      | none => s
    { s with mounted := false }

/-- The body of a timer callback.  Exit timer (lines 112-117): when the
liveness ref is still set, clear `shouldRender`, fire `onExited`, and let
the batched re-render commit (which detaches the node).  `onEntered`
timer (lines 136-138): fire `onEntered` when the liveness ref is set. -/
def fireTimerBody (c : HookConfig) (tm : PTimer) (s : HState) : HState :=
  match tm.kind with
  | .exitT =>
      if s.isMounted then
        render c (emit (.onExited s.time) { s with shouldRender := false })
      else s
  | .enteredT =>
      if s.isMounted then emit (.onEntered s.time) s else s

/-- Fire a due timer: a timer runs only if it has not been cleared, is
removed from the pending set, and advances the clock to its fire time. -/
def fireOne (c : HookConfig) (tm : PTimer) (s : HState) : HState :=
  if s.tasks.any (fun t => t.id = tm.id) then
    fireTimerBody c tm
      { s with tasks := s.tasks.filter (fun t => t.id ≠ tm.id),
               time := tm.fireAt }
  else s

/-- Timer ordering: by fire time, ties by scheduling order (id). -/
def timerLE (a b : PTimer) : Bool :=
  if a.fireAt = b.fireAt then a.id ≤ b.id else a.fireAt ≤ b.fireAt

def insertT (tm : PTimer) : List PTimer → List PTimer
  | [] => [tm]
  | x :: xs => if timerLE tm x then tm :: x :: xs else x :: insertT tm xs

def sortT : List PTimer → List PTimer
  | [] => []
  | x :: xs => insertT x (sortT xs)

/-- The timers due at or before time `t`. -/
def dueBefore (t : Nat) (tasks : List PTimer) : List PTimer :=
  tasks.filter (fun tm => tm.fireAt ≤ t)

/-- Fire a list of candidate timers in order (each is skipped if it was
cleared by the time it is reached). -/
def drainList (c : HookConfig) : List PTimer → HState → HState
  | [], s => s
  | tm :: rest, s => drainList c rest (fireOne c tm s)

/-- External stimuli driving a run: a setter call, a paint frame, or the
teardown of the owning instance. -/
inductive SimInput where
  | set (b : Bool)
  | frame
  | unmount
deriving DecidableEq, Repr

/-- Dispatch one external stimulus at the current time. -/
def applyExt (c : HookConfig) (i : SimInput) (s : HState) : HState :=
  match i with
  | .set b => doSet c b s
  | .frame => doFrame c s
  | .unmount => doUnmount s

/-- Process one timestamped stimulus: first fire every timer that is due
strictly before the stimulus' time (in fire order), then advance the
clock and apply the stimulus. -/
def stepInput (c : HookConfig) (s : HState) : Nat × SimInput → HState
  | (t, i) =>
      let s := drainList c (sortT (dueBefore t s.tasks)) s
      applyExt c i { s with time := t }

def processInputs (c : HookConfig) : List (Nat × SimInput) → HState → HState
  | [], s => s
  | inp :: rest, s => processInputs c rest (stepInput c s inp)

/-- After the last stimulus, let every remaining pending timer fire. -/
def finish (c : HookConfig) (s : HState) : HState :=
  drainList c (sortT s.tasks) s

/-- Initial state and mount: both `useState` cells start at
`initialValue`, `isMountedRef` starts true, and the initial
render/commit/effects pass runs at time 0. -/
def initState (c : HookConfig) (initial : Bool) : HState :=
  render c
    { time := 0, mounted := true, isVisible := initial,
      shouldRender := initial, isMounted := true, elementBound := false,
      mountEffectRan := false, prevVisDeps := none, prevLayoutDeps := none,
      passiveCleanup := none, tasks := [], rafq := [], nextId := 0,
      events := [] }

/-- A whole run: mount, process the stimuli, then let all remaining
timers fire. -/
def runHook (c : HookConfig) (initial : Bool) (inputs : List (Nat × SimInput)) :
    HState :=
  finish c (processInputs c inputs (initState c initial))

def runEvents (c : HookConfig) (initial : Bool)
    (inputs : List (Nat × SimInput)) : List Event :=
  (runHook c initial inputs).events

/-- Style-mutation events (as opposed to lifecycle callbacks). -/
def isStyleEv : Event → Bool
  | .setTransition _ _ => true
  | .applyStyleEv _ _ => true
  | _ => false

/-! ## Concrete configurations used by the scenario runs -/

/-- `duration=300, effect="fade", timingFunction="ease-in-out"`, ref
attached: the defaults of the hook, as in spec scenarios A, B and D. -/
def cfgFade : HookConfig := ⟨300, .str "fade", "ease-in-out", true⟩

/-- Same configuration but with the returned ref never attached to any
element (spec §6: "omitting the binding"). -/
def cfgNoBind : HookConfig := ⟨300, .str "fade", "ease-in-out", false⟩

/-- Scenario D stimuli: setter(true) at t=0, paint frames at t=16 and
t=32 (the enter's two-phase commit completes), setter(false) at t=50. -/
def inputsD : List (Nat × SimInput) :=
  [(0, .set true), (16, .frame), (32, .frame), (50, .set false)]

/-- Early-preemption stimuli: setter(true) at t=0, setter(false) at t=5
(before any paint frame), then frames at t=16, t=32 and t=310. -/
def inputsEarly : List (Nat × SimInput) :=
  [(0, .set true), (5, .set false), (16, .frame), (32, .frame), (310, .frame)]

end UseTransition

namespace UseTransition

/-! ## Claim C7: unknown preset names fall back to the fade preset -/

/-- **C7.** For every string effect selector that is not one of the
recognized preset names `"fade"`, `"slide"`, `"zoom"`, `getEffectConfig`
deterministically returns the default fade preset
`{from: {opacity: 0}, to: {opacity: 1}}`; no error is raised (the
resolver is a total function). -/
theorem unknown_preset_falls_back_to_fade (s : String)
    (h1 : s ≠ "fade") (h2 : s ≠ "slide") (h3 : s ≠ "zoom") :
    getEffectConfig (.str s) = fadeKf ∧
    fadeKf = ⟨some [("opacity", "0")], some [("opacity", "1")]⟩ := by
  refine ⟨?_, rfl⟩
  have e1 : (s == "fade") = false := beq_eq_false_iff_ne.mpr h1
  have e2 : (s == "slide") = false := beq_eq_false_iff_ne.mpr h2
  have e3 : (s == "zoom") = false := beq_eq_false_iff_ne.mpr h3
  simp [getEffectConfig, PRESETS, List.lookup, e1, e2, e3]

/-- Witness for C7 at the unrecognized selector `"blur"`. -/
theorem unknown_preset_falls_back_to_fade_witness :
    getEffectConfig (.str "blur") = fadeKf ∧
    fadeKf = ⟨some [("opacity", "0")], some [("opacity", "1")]⟩ :=
  unknown_preset_falls_back_to_fade "blur"
    (by decide) (by decide) (by decide)

/-! ## Claim C8: an explicit keyframe pair overrides every preset -/

/-- **C8.** For every caller-supplied explicit `{from, to}` keyframe pair
(both fields present) passed as the effect option, the resolved style
pair is exactly the supplied object, not any built-in preset. -/
theorem custom_keyframes_override_presets (o : KeyframesObj)
    (hf : o.fromStyle.isSome) (ht : o.toStyle.isSome) :
    getEffectConfig (.obj o) = o := rfl

/-- Witness for C8 at the spec's Scenario C pair
`{from: {opacity: "0"}, to: {opacity: "1"}}`. -/
theorem custom_keyframes_override_presets_witness :
    getEffectConfig (.obj ⟨some [("opacity", "0")], some [("opacity", "1")]⟩) =
      ⟨some [("opacity", "0")], some [("opacity", "1")]⟩ :=
  custom_keyframes_override_presets
    ⟨some [("opacity", "0")], some [("opacity", "1")]⟩ (by decide) (by decide)

/-! ## Claim C10: non-string effect values pass through unvalidated -/

/-- **C10.** For every effect option value that is not a string,
`getEffectConfig` returns it unchanged without validating its shape:
the `typeof effect === "string"` test is the only branch, so any object
— including one whose `from` or `to` field is missing — is passed
through as-is rather than falling back to a preset or raising an error.
(The quantifier ranges over all `KeyframesObj`, whose optional fields
include every shape-malformed object.) -/
theorem nonstring_effect_passes_through (o : KeyframesObj) :
    getEffectConfig (.obj o) = o ∧
    getEffectConfig (.obj ⟨none, o.toStyle⟩) = ⟨none, o.toStyle⟩ := ⟨rfl, rfl⟩

/-! ## Claim C1: supersession does NOT cancel the enter chain

The claim states that re-triggering visibility before a transition
completes cancels all of that transition's pending frame callbacks and
its duration timer, so in Scenario D `onEntered` never fires.  The code
does not do this: the layout effect (lines 122-142) returns no cleanup,
so neither the `requestAnimationFrame` chain nor the `onEntered`
`setTimeout` scheduled inside it is ever cancelled. -/

/-- **C1, counterexample.**  Scenario D (`setter(true)` at t=0, paint
frames at t=16/32, `setter(false)` at t=50, duration 300): the
`onEntered` timer scheduled at t=32 by the superseded enter transition
still fires at t=332 — `runEvents` contains `onEntered 332` at index 8 —
refuting "onEntered never fires" and hence the claimed cancellation. -/
theorem superseded_enter_timer_still_fires :
    (runEvents cfgFade false inputsD)[8]? = some (.onEntered 332) := by decide

/-- **C1, amended.**  Re-triggering visibility before the enter
transition completes cancels only the exit path's duration timer (via
the visibility effect's cleanup); the enter transition's frame callbacks
and its `onEntered` timer are never cancelled.  In Scenario D the full
observable trace is: enter commits at t=0/t=32, `onExit` fires at t=50
with the collapsed style re-applied, the superseded enter's `onEntered`
fires at t=332 (duration after the `to` style commit), and `onExited`
fires at t=350. -/
theorem scenario_d_full_trace :
    runEvents cfgFade false inputsD =
      [.onEnter 0,
       .setTransition 0 .noneV,
       .applyStyleEv 0 [("opacity", "0")],
       .setTransition 32 (.allV 300 "ease-in-out"),
       .applyStyleEv 32 [("opacity", "1")],
       .onExit 50,
       .setTransition 50 (.allV 300 "ease-in-out"),
       .applyStyleEv 50 [("opacity", "0")],
       .onEntered 332,
       .onExited 350] := by decide

/-! ## Claim C4: two-phase enter commit protocol -/

/-- Step (1) of the enter protocol: when the layout effect runs with the
element visible, rendered and bound, it first disables the transition,
then applies the resolved `from` style, and schedules the first frame
callback — nothing else. -/
theorem layout_enter_commit (c : HookConfig) (s : HState)
    (hd : ¬s.prevLayoutDeps = some (s.shouldRender, s.isVisible))
    (hv : s.isVisible = true) (hr : s.shouldRender = true)
    (hb : s.elementBound = true) :
    runLayoutEffect c s =
      { s with
        prevLayoutDeps := some (s.shouldRender, s.isVisible),
        events := s.events ++
          [.setTransition s.time .noneV,
           .applyStyleEv s.time (bagProps (getEffectConfig c.effect).fromStyle)],
        rafq := s.rafq ++ [.chainStart] } := by
  rw [hv, hr] at hd ⊢
  simp [runLayoutEffect, emit, hd, hv, hr, hb]

/-- Steps (2)-(3): the first paint opportunity only re-defers — the outer
frame callback schedules the inner one for the next frame and commits
nothing. -/
theorem first_frame_defers (c : HookConfig) (s : HState)
    (hq : s.rafq = [.chainStart]) :
    doFrame c s = { s with rafq := [.chainEnd] } := by
  simp [doFrame, hq, runRafCb]

/-- Step (4): at the second paint opportunity the inner frame callback
re-enables the transition with the configured duration and timing
function, applies the resolved `to` style, and schedules the `onEntered`
timer to fire exactly `duration` ms later. -/
theorem second_frame_commits (c : HookConfig) (s : HState)
    (hq : s.rafq = [.chainEnd]) (hb : s.elementBound = true) :
    doFrame c s =
      { s with
        rafq := [],
        events := s.events ++
          [.setTransition s.time (.allV c.duration c.timingFunction),
           .applyStyleEv s.time (bagProps (getEffectConfig c.effect).toStyle)],
        tasks := s.tasks ++ [⟨s.nextId, s.time + c.duration, .enteredT⟩],
        nextId := s.nextId + 1 } := by
  simp [doFrame, hq, runRafCb, hb, emit]

/-- When the pending `onEntered` timer fires with the liveness ref still
set, it invokes `onEntered` at its scheduled fire time and does nothing
else. -/
theorem entered_timer_fires (c : HookConfig) (s : HState) (tid t : Nat)
    (hm : s.isMounted = true) (ht : s.tasks = [⟨tid, t, .enteredT⟩]) :
    fireOne c ⟨tid, t, .enteredT⟩ s =
      { s with tasks := [], time := t,
               events := s.events ++ [.onEntered t] } := by
  simp [fireOne, ht, fireTimerBody, hm, emit]

/-- **C4.**  For every enter transition with a bound node the commit
follows exactly the claimed steps in order: (1) the transition is
disabled and the resolved `from` style applied (`layout_enter_commit`);
(2) one paint opportunity passes with the outer frame callback only
re-deferring (`first_frame_defers`); (3)-(4) at the second paint
opportunity the transition is re-enabled with the configured duration
and timing function, the resolved `to` style is applied, and `onEntered`
is scheduled exactly `duration` ms after that commit
(`second_frame_commits`, `entered_timer_fires`).  Conjunct (5)
instantiates the whole protocol on Scenario A
(duration 300, fade, frames at t=16/32): the observable trace is
`from` at t=0, `to` at t=32, `onEntered` at t=332. -/
theorem enter_two_phase_commit_protocol :
    (∀ (c : HookConfig) (s : HState),
      ¬s.prevLayoutDeps = some (s.shouldRender, s.isVisible) →
      s.isVisible = true → s.shouldRender = true → s.elementBound = true →
      runLayoutEffect c s =
        { s with
          prevLayoutDeps := some (s.shouldRender, s.isVisible),
          events := s.events ++
            [.setTransition s.time .noneV,
             .applyStyleEv s.time (bagProps (getEffectConfig c.effect).fromStyle)],
          rafq := s.rafq ++ [.chainStart] }) ∧
    (∀ (c : HookConfig) (s : HState), s.rafq = [.chainStart] →
      doFrame c s = { s with rafq := [.chainEnd] }) ∧
    (∀ (c : HookConfig) (s : HState), s.rafq = [.chainEnd] →
      s.elementBound = true →
      doFrame c s =
        { s with
          rafq := [],
          events := s.events ++
            [.setTransition s.time (.allV c.duration c.timingFunction),
             .applyStyleEv s.time (bagProps (getEffectConfig c.effect).toStyle)],
          tasks := s.tasks ++ [⟨s.nextId, s.time + c.duration, .enteredT⟩],
          nextId := s.nextId + 1 }) ∧
    (∀ (c : HookConfig) (s : HState) (tid t : Nat),
      s.isMounted = true → s.tasks = [⟨tid, t, .enteredT⟩] →
      fireOne c ⟨tid, t, .enteredT⟩ s =
        { s with tasks := [], time := t,
                 events := s.events ++ [.onEntered t] }) ∧
    runEvents cfgFade false [(0, .set true), (16, .frame), (32, .frame)] =
      [.onEnter 0,
       .setTransition 0 .noneV,
       .applyStyleEv 0 [("opacity", "0")],
       .setTransition 32 (.allV 300 "ease-in-out"),
       .applyStyleEv 32 [("opacity", "1")],
       .onEntered 332] :=
  ⟨layout_enter_commit, first_frame_defers, second_frame_commits,
   entered_timer_fires, by decide⟩

/-- Witness for C4: the general conjuncts applied at concrete states —
the Scenario A enter's own intermediate states. -/
theorem enter_two_phase_commit_protocol_witness :
    runLayoutEffect cfgFade
      { time := 0, mounted := true, isVisible := true, shouldRender := true,
        isMounted := true, elementBound := true, mountEffectRan := true,
        prevVisDeps := some true, prevLayoutDeps := some (false, false),
        passiveCleanup := none, tasks := [], rafq := [], nextId := 0,
        events := [] } =
      { time := 0, mounted := true, isVisible := true, shouldRender := true,
        isMounted := true, elementBound := true, mountEffectRan := true,
        prevVisDeps := some true, prevLayoutDeps := some (true, true),
        passiveCleanup := none, tasks := [],
        rafq := [.chainStart], nextId := 0,
        events := [.setTransition 0 .noneV,
                   .applyStyleEv 0 [("opacity", "0")]] } ∧
    fireOne cfgFade ⟨0, 332, .enteredT⟩
      { time := 32, mounted := true, isVisible := true, shouldRender := true,
        isMounted := true, elementBound := true, mountEffectRan := true,
        prevVisDeps := some true, prevLayoutDeps := some (true, true),
        passiveCleanup := none, tasks := [⟨0, 332, .enteredT⟩], rafq := [],
        nextId := 1, events := [] } =
      { time := 332, mounted := true, isVisible := true, shouldRender := true,
        isMounted := true, elementBound := true, mountEffectRan := true,
        prevVisDeps := some true, prevLayoutDeps := some (true, true),
        passiveCleanup := none, tasks := [], rafq := [],
        nextId := 1, events := [.onEntered 332] } := by
  constructor
  · exact enter_two_phase_commit_protocol.1 cfgFade _ (by decide) rfl rfl rfl
  · exact enter_two_phase_commit_protocol.2.2.2.1 cfgFade _ 0 332 rfl rfl

/-! ## Claim C5: exit transition side effects -/

/-- When the visibility effect runs with the intent fresh-flipped to
false while the element is still rendered and bound: it invokes `onExit`
first, immediately (same tick, no frame deferral) enables the transition
and applies the collapsed `from` style, and schedules the exit duration
timer to fire exactly `duration` ms later, storing its id as the
cleanup. -/
theorem exit_effect_starts (c : HookConfig) (s : HState)
    (hd : ¬s.prevVisDeps = some s.isVisible)
    (hv : s.isVisible = false) (hr : s.shouldRender = true)
    (hb : s.elementBound = true) (hpc : s.passiveCleanup = none) :
    runVisEffect c s =
      { s with
        prevVisDeps := some false,
        events := s.events ++
          [.onExit s.time,
           .setTransition s.time (.allV c.duration c.timingFunction),
           .applyStyleEv s.time (bagProps (getEffectConfig c.effect).fromStyle)],
        tasks := s.tasks ++ [⟨s.nextId, s.time + c.duration, .exitT⟩],
        nextId := s.nextId + 1,
        passiveCleanup := some s.nextId } := by
  rw [hv] at hd
  simp [runVisEffect, hd, hv, hr, hb, hpc, emit]

/-- When the pending exit timer fires with the liveness ref still set:
`shouldRender` (Presence) is set false, `onExited` is invoked at the
timer's fire time, and the batched re-render detaches the node
(`elementBound` becomes false). -/
theorem exit_timer_fires (c : HookConfig) (s : HState) (tid t : Nat)
    (hm : s.isMounted = true) (ht : s.tasks = [⟨tid, t, .exitT⟩])
    (hv : s.isVisible = false) (hpv : s.prevVisDeps = some false)
    (hpl : s.prevLayoutDeps = some (true, false))
    (hmr : s.mountEffectRan = true) :
    fireOne c ⟨tid, t, .exitT⟩ s =
      { s with
        shouldRender := false, elementBound := false,
        prevLayoutDeps := some (false, false), tasks := [], time := t,
        events := s.events ++ [.onExited t] } := by
  simp [fireOne, ht, fireTimerBody, hm, emit, render, doRender, renderOnce,
        commit, runLayoutEffect, runMountEffect, runVisEffect,
        hv, hpv, hpl, hmr]

/-- **C5.**  For every exit transition (intent flips to false while
Presence is true): `onExit` is invoked, the collapsed `from` style is
immediately applied to the bound node with no frame deferral, and a
duration timer is started (`exit_effect_starts`); when that timer
elapses with Liveness still true, Presence is set false, the node
binding is cleared and `onExited` is invoked (`exit_timer_fires`).  The
last conjuncts instantiate this on a concrete run (enter at t=0, exit at
t=400, duration 300): `onExit` and the collapsed style at t=400 with no
frame input in between, `onExited` at t=700, final Presence false and
binding cleared. -/
theorem exit_transition_lifecycle :
    (∀ (c : HookConfig) (s : HState),
      ¬s.prevVisDeps = some s.isVisible →
      s.isVisible = false → s.shouldRender = true →
      s.elementBound = true → s.passiveCleanup = none →
      runVisEffect c s =
        { s with
          prevVisDeps := some false,
          events := s.events ++
            [.onExit s.time,
             .setTransition s.time (.allV c.duration c.timingFunction),
             .applyStyleEv s.time (bagProps (getEffectConfig c.effect).fromStyle)],
          tasks := s.tasks ++ [⟨s.nextId, s.time + c.duration, .exitT⟩],
          nextId := s.nextId + 1,
          passiveCleanup := some s.nextId }) ∧
    (∀ (c : HookConfig) (s : HState) (tid t : Nat),
      s.isMounted = true → s.tasks = [⟨tid, t, .exitT⟩] →
      s.isVisible = false → s.prevVisDeps = some false →
      s.prevLayoutDeps = some (true, false) → s.mountEffectRan = true →
      fireOne c ⟨tid, t, .exitT⟩ s =
        { s with
          shouldRender := false, elementBound := false,
          prevLayoutDeps := some (false, false), tasks := [], time := t,
          events := s.events ++ [.onExited t] }) ∧
    runEvents cfgFade false [(0, .set true), (400, .set false)] =
      [.onEnter 0,
       .setTransition 0 .noneV,
       .applyStyleEv 0 [("opacity", "0")],
       .onExit 400,
       .setTransition 400 (.allV 300 "ease-in-out"),
       .applyStyleEv 400 [("opacity", "0")],
       .onExited 700] ∧
    (runHook cfgFade false [(0, .set true), (400, .set false)]).shouldRender
      = false ∧
    (runHook cfgFade false [(0, .set true), (400, .set false)]).elementBound
      = false :=
  ⟨exit_effect_starts, exit_timer_fires, by decide, by decide, by decide⟩

/-- Witness for C5: the general conjuncts applied at the concrete
Exiting states of the scenario. -/
theorem exit_transition_lifecycle_witness :
    runVisEffect cfgFade
      { time := 400, mounted := true, isVisible := false,
        shouldRender := true, isMounted := true, elementBound := true,
        mountEffectRan := true, prevVisDeps := some true,
        prevLayoutDeps := some (true, false), passiveCleanup := none,
        tasks := [], rafq := [], nextId := 0, events := [] } =
      { time := 400, mounted := true, isVisible := false,
        shouldRender := true, isMounted := true, elementBound := true,
        mountEffectRan := true, prevVisDeps := some false,
        prevLayoutDeps := some (true, false), passiveCleanup := some 0,
        tasks := [⟨0, 700, .exitT⟩], rafq := [], nextId := 1,
        events := [.onExit 400,
                   .setTransition 400 (.allV 300 "ease-in-out"),
                   .applyStyleEv 400 [("opacity", "0")]] } ∧
    fireOne cfgFade ⟨0, 700, .exitT⟩
      { time := 400, mounted := true, isVisible := false,
        shouldRender := true, isMounted := true, elementBound := true,
        mountEffectRan := true, prevVisDeps := some false,
        prevLayoutDeps := some (true, false), passiveCleanup := some 0,
        tasks := [⟨0, 700, .exitT⟩], rafq := [], nextId := 1,
        events := [] } =
      { time := 700, mounted := true, isVisible := false,
        shouldRender := false, isMounted := true, elementBound := false,
        mountEffectRan := true, prevVisDeps := some false,
        prevLayoutDeps := some (false, false), passiveCleanup := some 0,
        tasks := [], rafq := [], nextId := 1,
        events := [.onExited 700] } := by
  constructor
  · exact exit_transition_lifecycle.1 cfgFade _ (by decide) rfl rfl rfl rfl
  · exact exit_transition_lifecycle.2.1 cfgFade _ 0 700 rfl rfl rfl rfl rfl rfl

/-! ## Claim C2: teardown safety

Infrastructure: a state is *torn down* when the component is unmounted,
the liveness ref is cleared and the node ref is null.  From a torn-down
state, no step — timers firing, paint frames, further stimuli — emits
any further event. -/

/-- The state after teardown: component gone, liveness ref false,
node ref null. -/
def Torn (s : HState) : Prop :=
  s.mounted = false ∧ s.isMounted = false ∧ s.elementBound = false

theorem torn_doSet (c : HookConfig) (b : Bool) (s : HState) (h : Torn s) :
    doSet c b s = s := by
  simp [doSet, h.1]

theorem torn_runRafCb (c : HookConfig) (cb : RafCb) (s : HState)
    (h : Torn s) :
    (runRafCb c cb s).events = s.events ∧ Torn (runRafCb c cb s) := by
  cases cb with
  | chainStart => exact ⟨rfl, h.1, h.2.1, h.2.2⟩
  | chainEnd => simp [runRafCb, h.2.2]; exact h

theorem torn_foldRaf (c : HookConfig) (q : List RafCb) (s : HState)
    (h : Torn s) :
    (q.foldl (fun acc cb => runRafCb c cb acc) s).events = s.events ∧
    Torn (q.foldl (fun acc cb => runRafCb c cb acc) s) := by
  induction q generalizing s with
  | nil => exact ⟨rfl, h⟩
  | cons cb rest ih =>
      have h1 := torn_runRafCb c cb s h
      have h2 := ih (runRafCb c cb s) h1.2
      exact ⟨h2.1.trans h1.1, h2.2⟩

theorem torn_doFrame (c : HookConfig) (s : HState) (h : Torn s) :
    (doFrame c s).events = s.events ∧ Torn (doFrame c s) := by
  have h0 : Torn ({ s with rafq := [] } : HState) := ⟨h.1, h.2.1, h.2.2⟩
  simpa [doFrame] using torn_foldRaf c s.rafq { s with rafq := [] } h0

theorem torn_doUnmount (s : HState) (h : Torn s) : doUnmount s = s := by
  simp [doUnmount, h.1]

theorem torn_fireTimerBody (c : HookConfig) (tm : PTimer) (s : HState)
    (h : s.isMounted = false) : fireTimerBody c tm s = s := by
  cases tk : tm.kind <;> simp [fireTimerBody, tk, h]

theorem torn_fireOne (c : HookConfig) (tm : PTimer) (s : HState)
    (h : Torn s) :
    (fireOne c tm s).events = s.events ∧ Torn (fireOne c tm s) := by
  unfold fireOne
  split
  · have h2 := torn_fireTimerBody c tm
      { s with tasks := s.tasks.filter (fun t => t.id ≠ tm.id),
               time := tm.fireAt } h.2.1
    rw [h2]
    exact ⟨rfl, h.1, h.2.1, h.2.2⟩
  · exact ⟨rfl, h⟩

theorem torn_drainList (c : HookConfig) (l : List PTimer) (s : HState)
    (h : Torn s) :
    (drainList c l s).events = s.events ∧ Torn (drainList c l s) := by
  induction l generalizing s with
  | nil => exact ⟨rfl, h⟩
  | cons tm rest ih =>
      have h1 := torn_fireOne c tm s h
      have h2 := ih (fireOne c tm s) h1.2
      exact ⟨h2.1.trans h1.1, h2.2⟩

theorem torn_applyExt (c : HookConfig) (i : SimInput) (s : HState)
    (h : Torn s) :
    (applyExt c i s).events = s.events ∧ Torn (applyExt c i s) := by
  cases i with
  | set b => rw [applyExt, torn_doSet c b s h]; exact ⟨rfl, h⟩
  | frame => exact torn_doFrame c s h
  | unmount => rw [applyExt, torn_doUnmount s h]; exact ⟨rfl, h⟩

theorem torn_stepInput (c : HookConfig) (s : HState) (inp : Nat × SimInput)
    (h : Torn s) :
    (stepInput c s inp).events = s.events ∧ Torn (stepInput c s inp) := by
  obtain ⟨t, i⟩ := inp
  have h1 := torn_drainList c (sortT (dueBefore t s.tasks)) s h
  have h2 : Torn ({ drainList c (sortT (dueBefore t s.tasks)) s with
      time := t } : HState) := ⟨h1.2.1, h1.2.2.1, h1.2.2.2⟩
  have h3 := torn_applyExt c i _ h2
  exact ⟨h3.1.trans h1.1, h3.2⟩

theorem torn_processInputs (c : HookConfig) (l : List (Nat × SimInput))
    (s : HState) (h : Torn s) :
    (processInputs c l s).events = s.events ∧
    Torn (processInputs c l s) := by
  induction l generalizing s with
  | nil => exact ⟨rfl, h⟩
  | cons inp rest ih =>
      have h1 := torn_stepInput c s inp h
      have h2 := ih (stepInput c s inp) h1.2
      exact ⟨h2.1.trans h1.1, h2.2⟩

theorem torn_finish (c : HookConfig) (s : HState) (h : Torn s) :
    (finish c s).events = s.events :=
  (torn_drainList c (sortT s.tasks) s h).1

/-! `mounted` is changed by no step other than `doUnmount`. -/

theorem mounted_runLayoutEffect (c : HookConfig) (s : HState) :
    (runLayoutEffect c s).mounted = s.mounted := by
  cases h2 : s.isVisible <;> cases h3 : s.shouldRender <;>
    cases h4 : s.elementBound <;>
    simp [runLayoutEffect, h2, h3, h4, emit] <;> (try (split <;> rfl))

theorem mounted_runMountEffect (s : HState) :
    (runMountEffect s).mounted = s.mounted := by
  cases h : s.mountEffectRan <;> simp [runMountEffect, h]

theorem mounted_runVisEffect (c : HookConfig) (s : HState) :
    (runVisEffect c s).mounted = s.mounted := by
  cases hpc : s.passiveCleanup <;> cases h2 : s.isVisible <;>
    cases h3 : s.shouldRender <;> cases h4 : s.elementBound <;>
    simp [runVisEffect, hpc, h2, h3, h4, emit] <;> (try (split <;> rfl))

theorem mounted_renderOnce (c : HookConfig) (s : HState) :
    (renderOnce c s).mounted = s.mounted := by
  show (runVisEffect c (runMountEffect (runLayoutEffect c (commit c s)))).mounted
      = s.mounted
  rw [mounted_runVisEffect, mounted_runMountEffect, mounted_runLayoutEffect]
  rfl

theorem mounted_doRender (c : HookConfig) (fuel : Nat) (s : HState) :
    (doRender c fuel s).mounted = s.mounted := by
  induction fuel generalizing s with
  | zero => rfl
  | succ n ih =>
      by_cases h : (renderOnce c s).shouldRender = s.shouldRender
      · simp [doRender, h, mounted_renderOnce]
      · simp [doRender, h, ih, mounted_renderOnce]

theorem mounted_doSet (c : HookConfig) (b : Bool) (s : HState) :
    (doSet c b s).mounted = s.mounted := by
  cases h : s.mounted <;>
    simp [doSet, h, render, mounted_doRender]

theorem mounted_runRafCb (c : HookConfig) (cb : RafCb) (s : HState) :
    (runRafCb c cb s).mounted = s.mounted := by
  cases cb with
  | chainStart => rfl
  | chainEnd => cases hb : s.elementBound <;> simp [runRafCb, hb, emit]

theorem mounted_foldRaf (c : HookConfig) (q : List RafCb) (s : HState) :
    (q.foldl (fun acc cb => runRafCb c cb acc) s).mounted = s.mounted := by
  induction q generalizing s with
  | nil => rfl
  | cons cb rest ih => rw [List.foldl_cons, ih, mounted_runRafCb]

theorem mounted_doFrame (c : HookConfig) (s : HState) :
    (doFrame c s).mounted = s.mounted :=
  mounted_foldRaf c s.rafq { s with rafq := [] }

theorem mounted_fireTimerBody (c : HookConfig) (tm : PTimer) (s : HState) :
    (fireTimerBody c tm s).mounted = s.mounted := by
  cases tk : tm.kind with
  | exitT =>
      cases h : s.isMounted <;>
        simp [fireTimerBody, tk, h, render, mounted_doRender, emit]
  | enteredT =>
      cases h : s.isMounted <;> simp [fireTimerBody, tk, h, emit]

theorem mounted_fireOne (c : HookConfig) (tm : PTimer) (s : HState) :
    (fireOne c tm s).mounted = s.mounted := by
  unfold fireOne
  split
  · exact mounted_fireTimerBody c tm _
  · rfl

theorem mounted_drainList (c : HookConfig) (l : List PTimer) (s : HState) :
    (drainList c l s).mounted = s.mounted := by
  induction l generalizing s with
  | nil => rfl
  | cons tm rest ih => rw [drainList, ih, mounted_fireOne]

/-! The invariant "once unmounted, the state is fully torn down",
preserved by every step. -/

/-- `mounted = false` only ever holds together with the full torn-down
condition. -/
def MInv (s : HState) : Prop := s.mounted = false → Torn s

theorem minv_of_mounted (s : HState) (h : s.mounted = true) : MInv s :=
  fun hm => absurd hm (by simp [h])

theorem minv_doSet (c : HookConfig) (b : Bool) (s : HState) (h : MInv s) :
    MInv (doSet c b s) := by
  by_cases hm : s.mounted
  · exact minv_of_mounted _ ((mounted_doSet c b s).trans hm)
  · intro _
    rw [torn_doSet c b s (h (Bool.eq_false_iff.mpr hm))]
    exact h (Bool.eq_false_iff.mpr hm)

theorem minv_doFrame (c : HookConfig) (s : HState) (h : MInv s) :
    MInv (doFrame c s) := by
  by_cases hm : s.mounted
  · exact minv_of_mounted _ ((mounted_doFrame c s).trans hm)
  · intro _
    exact (torn_doFrame c s (h (Bool.eq_false_iff.mpr hm))).2

theorem torn_after_doUnmount (s : HState) (h : MInv s) :
    Torn (doUnmount s) := by
  by_cases hm : s.mounted
  · unfold doUnmount
    rw [hm]
    simp only [Bool.not_true, Bool.false_eq_true, if_false]
    cases hpc : s.passiveCleanup <;> simp [Torn]
  · rw [torn_doUnmount s (h (Bool.eq_false_iff.mpr hm))]
    exact h (Bool.eq_false_iff.mpr hm)

theorem minv_doUnmount (s : HState) (h : MInv s) : MInv (doUnmount s) :=
  fun _ => torn_after_doUnmount s h

theorem minv_fireOne (c : HookConfig) (tm : PTimer) (s : HState)
    (h : MInv s) : MInv (fireOne c tm s) := by
  by_cases hm : s.mounted
  · exact minv_of_mounted _ ((mounted_fireOne c tm s).trans hm)
  · intro _
    exact (torn_fireOne c tm s (h (Bool.eq_false_iff.mpr hm))).2

theorem minv_drainList (c : HookConfig) (l : List PTimer) (s : HState)
    (h : MInv s) : MInv (drainList c l s) := by
  induction l generalizing s with
  | nil => exact h
  | cons tm rest ih => exact ih _ (minv_fireOne c tm s h)

theorem minv_time (s : HState) (t : Nat) (h : MInv s) :
    MInv ({ s with time := t } : HState) := by
  intro hm
  exact ⟨(h hm).1, (h hm).2.1, (h hm).2.2⟩

theorem minv_applyExt (c : HookConfig) (i : SimInput) (s : HState)
    (h : MInv s) : MInv (applyExt c i s) := by
  cases i with
  | set b => exact minv_doSet c b s h
  | frame => exact minv_doFrame c s h
  | unmount => exact minv_doUnmount s h

theorem minv_stepInput (c : HookConfig) (s : HState) (inp : Nat × SimInput)
    (h : MInv s) : MInv (stepInput c s inp) := by
  obtain ⟨t, i⟩ := inp
  exact minv_applyExt c i _ (minv_time _ t (minv_drainList c _ s h))

theorem minv_processInputs (c : HookConfig) (l : List (Nat × SimInput))
    (s : HState) (h : MInv s) : MInv (processInputs c l s) := by
  induction l generalizing s with
  | nil => exact h
  | cons inp rest ih => exact ih _ (minv_stepInput c s inp h)

theorem initState_mounted (c : HookConfig) (b : Bool) :
    (initState c b).mounted = true := by
  unfold initState render
  rw [mounted_doRender]

theorem processInputs_append (c : HookConfig) (l1 l2 : List (Nat × SimInput))
    (s : HState) :
    processInputs c (l1 ++ l2) s = processInputs c l2 (processInputs c l1 s) := by
  induction l1 generalizing s with
  | nil => rfl
  | cons inp rest ih => rw [List.cons_append, processInputs, processInputs, ih]

/-- After processing a teardown stimulus, the state is torn down,
whatever happened before. -/
theorem torn_after_unmount_input (c : HookConfig) (init : Bool)
    (pre : List (Nat × SimInput)) (t : Nat) :
    Torn (stepInput c (processInputs c pre (initState c init))
            (t, .unmount)) := by
  have h0 : MInv (initState c init) :=
    minv_of_mounted _ (initState_mounted c init)
  have h1 : MInv (processInputs c pre (initState c init)) :=
    minv_processInputs c pre _ h0
  show Torn (applyExt c .unmount _)
  exact torn_after_doUnmount _ (minv_time _ t (minv_drainList c _ _ h1))

/-- **C2.**  For every execution in which the owning instance is torn
down while any timer or frame callback is still pending, zero further
lifecycle callbacks are invoked and zero further style mutations are
performed after teardown: the observable trace of any run is unchanged
by everything that happens after the teardown stimulus — pending exit
timers are cleared by the effect cleanup, and every surviving deferred
callback (`onEntered` timer, frame chain) is discarded by the
`isMountedRef` / `elementRef` guards. -/
theorem teardown_stops_all_events (c : HookConfig) (init : Bool)
    (pre post : List (Nat × SimInput)) (t : Nat) :
    runEvents c init (pre ++ (t, .unmount) :: post) =
    runEvents c init (pre ++ [(t, .unmount)]) := by
  unfold runEvents runHook
  rw [processInputs_append, processInputs_append]
  have htorn := torn_after_unmount_input c init pre t
  have hstep :
      processInputs c ((t, .unmount) :: post)
          (processInputs c pre (initState c init)) =
        processInputs c post
          (stepInput c (processInputs c pre (initState c init))
            (t, .unmount)) := rfl
  rw [hstep]
  have h2 := torn_processInputs c post _ htorn
  rw [torn_finish c _ h2.2, h2.1]
  have h3 :
      processInputs c [(t, .unmount)]
          (processInputs c pre (initState c init)) =
        stepInput c (processInputs c pre (initState c init))
          (t, .unmount) := rfl
  rw [h3, torn_finish c _ htorn]

/-! ## Claim C6: missing node binding degrades gracefully

Infrastructure: when the caller never attaches the ref
(`bindRef = false`), the element slot stays empty forever, every style
mutation site is skipped (each is guarded by the element check), and the
trace contains only lifecycle callbacks. -/

/-- The trace contains no style mutations. -/
def NoStyle (l : List Event) : Prop := ∀ e ∈ l, isStyleEv e = false

/-- Invariant of a run with no attached binding: the element slot is
empty and no style mutation has been emitted. -/
def Unbound (s : HState) : Prop :=
  s.elementBound = false ∧ NoStyle s.events

theorem noStyle_append (l : List Event) (e : Event) (h : NoStyle l)
    (he : isStyleEv e = false) : NoStyle (l ++ [e]) := by
  intro x hx
  rcases List.mem_append.mp hx with h1 | h1
  · exact h x h1
  · rw [List.mem_singleton.mp h1]; exact he

theorem ub_commit (c : HookConfig) (s : HState) (hb : c.bindRef = false)
    (h : Unbound s) : Unbound (commit c s) := by
  refine ⟨?_, h.2⟩
  simp [commit, hb]

theorem ub_runLayoutEffect (c : HookConfig) (s : HState) (h : Unbound s) :
    Unbound (runLayoutEffect c s) := by
  by_cases h1 : s.prevLayoutDeps = some (s.shouldRender, s.isVisible)
  · simp only [runLayoutEffect, if_pos h1]
    exact h
  · simp only [runLayoutEffect, if_neg h1]
    simp [h.1]
    exact ⟨rfl, h.2⟩

theorem ub_runMountEffect (s : HState) (h : Unbound s) :
    Unbound (runMountEffect s) := by
  cases hm : s.mountEffectRan <;> simp [runMountEffect, hm] <;>
    exact ⟨h.1, h.2⟩

theorem ub_runVisEffect (c : HookConfig) (s : HState) (h : Unbound s) :
    Unbound (runVisEffect c s) := by
  obtain ⟨hb, hns⟩ := h
  by_cases h1 : s.prevVisDeps = some s.isVisible
  · simp only [runVisEffect, if_pos h1]
    exact ⟨hb, hns⟩
  · cases hpc : s.passiveCleanup <;> cases h2 : s.isVisible <;>
      cases h3 : s.shouldRender <;> rw [h2] at h1 <;>
      simp [runVisEffect, h1, hpc, h2, h3, hb, emit] <;>
      first
        | exact ⟨hb, hns⟩
        | (refine ⟨rfl, ?_⟩
           first
             | exact hns
             | exact noStyle_append _ _ hns (by rfl))

theorem ub_renderOnce (c : HookConfig) (s : HState) (hb : c.bindRef = false)
    (h : Unbound s) : Unbound (renderOnce c s) :=
  ub_runVisEffect c _
    (ub_runMountEffect _ (ub_runLayoutEffect c _ (ub_commit c s hb h)))

theorem ub_doRender (c : HookConfig) (fuel : Nat) (s : HState)
    (hb : c.bindRef = false) (h : Unbound s) :
    Unbound (doRender c fuel s) := by
  induction fuel generalizing s with
  | zero => exact h
  | succ n ih =>
      by_cases hc : (renderOnce c s).shouldRender = s.shouldRender
      · simp only [doRender]
        rw [if_pos hc]
        exact ub_renderOnce c s hb h
      · simp only [doRender]
        rw [if_neg hc]
        exact ih _ (ub_renderOnce c s hb h)

theorem ub_doSet (c : HookConfig) (b : Bool) (s : HState)
    (hb : c.bindRef = false) (h : Unbound s) : Unbound (doSet c b s) := by
  cases hm : s.mounted <;> simp [doSet, hm, render]
  · exact h
  · exact ub_doRender c 3 _ hb ⟨h.1, h.2⟩

theorem ub_runRafCb (c : HookConfig) (cb : RafCb) (s : HState)
    (h : Unbound s) : Unbound (runRafCb c cb s) := by
  cases cb with
  | chainStart => exact ⟨h.1, h.2⟩
  | chainEnd => simp [runRafCb, h.1]; exact h

theorem ub_foldRaf (c : HookConfig) (q : List RafCb) (s : HState)
    (h : Unbound s) :
    Unbound (q.foldl (fun acc cb => runRafCb c cb acc) s) := by
  induction q generalizing s with
  | nil => exact h
  | cons cb rest ih => exact ih _ (ub_runRafCb c cb s h)

theorem ub_doFrame (c : HookConfig) (s : HState) (h : Unbound s) :
    Unbound (doFrame c s) :=
  ub_foldRaf c s.rafq { s with rafq := [] } ⟨h.1, h.2⟩

theorem ub_doUnmount (s : HState) (h : Unbound s) : Unbound (doUnmount s) := by
  cases hm : s.mounted with
  | false =>
      have e : doUnmount s = s := by simp [doUnmount, hm]
      rw [e]; exact h
  | true =>
      cases hpc : s.passiveCleanup <;> simp [doUnmount, hm, hpc] <;>
        exact ⟨rfl, h.2⟩

theorem ub_fireTimerBody (c : HookConfig) (tm : PTimer) (s : HState)
    (hb : c.bindRef = false) (h : Unbound s) :
    Unbound (fireTimerBody c tm s) := by
  cases tk : tm.kind with
  | exitT =>
      cases hm : s.isMounted <;> simp [fireTimerBody, tk, hm, render, emit]
      · exact h
      · exact ub_doRender c 3 _ hb ⟨h.1, noStyle_append _ _ h.2 rfl⟩
  | enteredT =>
      cases hm : s.isMounted <;> simp [fireTimerBody, tk, hm, emit]
      · exact h
      · exact ⟨h.1, noStyle_append _ _ h.2 rfl⟩

theorem ub_fireOne (c : HookConfig) (tm : PTimer) (s : HState)
    (hb : c.bindRef = false) (h : Unbound s) : Unbound (fireOne c tm s) := by
  unfold fireOne
  split
  · exact ub_fireTimerBody c tm _ hb ⟨h.1, h.2⟩
  · exact h

theorem ub_drainList (c : HookConfig) (l : List PTimer) (s : HState)
    (hb : c.bindRef = false) (h : Unbound s) :
    Unbound (drainList c l s) := by
  induction l generalizing s with
  | nil => exact h
  | cons tm rest ih => exact ih _ (ub_fireOne c tm s hb h)

theorem ub_stepInput (c : HookConfig) (s : HState) (inp : Nat × SimInput)
    (hb : c.bindRef = false) (h : Unbound s) :
    Unbound (stepInput c s inp) := by
  obtain ⟨t, i⟩ := inp
  have h1 := ub_drainList c (sortT (dueBefore t s.tasks)) s hb h
  have h2 : Unbound ({ drainList c (sortT (dueBefore t s.tasks)) s with
      time := t } : HState) := ⟨h1.1, h1.2⟩
  cases i with
  | set b => exact ub_doSet c b _ hb h2
  | frame => exact ub_doFrame c _ h2
  | unmount => exact ub_doUnmount _ h2

theorem ub_processInputs (c : HookConfig) (l : List (Nat × SimInput))
    (s : HState) (hb : c.bindRef = false) (h : Unbound s) :
    Unbound (processInputs c l s) := by
  induction l generalizing s with
  | nil => exact h
  | cons inp rest ih => exact ih _ (ub_stepInput c s inp hb h)

theorem ub_initState (c : HookConfig) (b : Bool) (hb : c.bindRef = false) :
    Unbound (initState c b) := by
  unfold initState render
  refine ub_doRender c 3 _ hb ⟨rfl, ?_⟩
  intro e he
  simp at he

/-- **C6.**  For every run in which the caller never attaches the node
binding, every style-mutation attempt is a no-op (the trace contains no
`setTransition` / `applyStyleEv` event at all, and no error is possible:
every operation is a total function), while the lifecycle still proceeds
to the correct final Presence value: in the concrete degraded run
(setter(true) at t=0, setter(false) at t=40, duration 300) the trace is
exactly `onEnter` at 0, `onExit` at 40, `onExited` at 340 — plain
show/hide with no animation — Presence ends false after a full exit
duration, and after a lone setter(true) Presence is true. -/
theorem missing_binding_degrades_gracefully :
    (∀ (c : HookConfig) (init : Bool) (inputs : List (Nat × SimInput)),
      c.bindRef = false → NoStyle (runEvents c init inputs)) ∧
    runEvents cfgNoBind false [(0, .set true), (40, .set false)] =
      [.onEnter 0, .onExit 40, .onExited 340] ∧
    (runHook cfgNoBind false [(0, .set true), (40, .set false)]).shouldRender
      = false ∧
    (runHook cfgNoBind false [(0, .set true)]).shouldRender = true := by
  refine ⟨?_, by decide, by decide, by decide⟩
  intro c init inputs hb
  exact (ub_drainList c _ _ hb
    (ub_processInputs c inputs _ hb (ub_initState c init hb))).2

/-- Witness for C6: the universal conjunct applied at the concrete
no-binding configuration and a concrete run. -/
theorem missing_binding_degrades_gracefully_witness :
    cfgNoBind.bindRef = false ∧
    NoStyle (runEvents cfgNoBind false [(0, .set true)]) :=
  ⟨rfl, missing_binding_degrades_gracefully.1 cfgNoBind false
    [(0, .set true)] rfl⟩

/-! ## Claim C3: the Presence invariant

Infrastructure: `shouldRender` (Presence) is never set to `false` by any
render, setter call, paint frame or teardown — the only site that clears
it is the exit timer's body, and only when the liveness ref is true. -/

theorem sr_runLayoutEffect (c : HookConfig) (s : HState) :
    (runLayoutEffect c s).shouldRender = s.shouldRender := by
  cases h2 : s.isVisible <;> cases h3 : s.shouldRender <;>
    cases h4 : s.elementBound <;>
    simp [runLayoutEffect, h2, h3, h4, emit] <;>
    (try (split <;> first | rfl | exact h3))

theorem sr_runMountEffect (s : HState) :
    (runMountEffect s).shouldRender = s.shouldRender := by
  cases h : s.mountEffectRan <;> simp [runMountEffect, h]

theorem sr_runVisEffect (c : HookConfig) (s : HState)
    (h : s.shouldRender = true) : (runVisEffect c s).shouldRender = true := by
  by_cases h1 : s.prevVisDeps = some s.isVisible
  · simp only [runVisEffect, if_pos h1]; exact h
  · cases hpc : s.passiveCleanup <;> cases h2 : s.isVisible <;>
      cases h4 : s.elementBound <;> rw [h2] at h1 <;>
      simp [runVisEffect, h1, hpc, h2, h, h4, emit] <;>
      (try (split <;> rfl))

theorem sr_renderOnce (c : HookConfig) (s : HState)
    (h : s.shouldRender = true) : (renderOnce c s).shouldRender = true := by
  show (runVisEffect c (runMountEffect (runLayoutEffect c (commit c s)))).shouldRender
      = true
  apply sr_runVisEffect
  rw [sr_runMountEffect, sr_runLayoutEffect]
  exact h

theorem sr_doRender (c : HookConfig) (fuel : Nat) (s : HState)
    (h : s.shouldRender = true) : (doRender c fuel s).shouldRender = true := by
  induction fuel generalizing s with
  | zero => exact h
  | succ n ih =>
      by_cases hc : (renderOnce c s).shouldRender = s.shouldRender
      · simp only [doRender]
        rw [if_pos hc]
        exact sr_renderOnce c s h
      · simp only [doRender]
        rw [if_neg hc]
        exact ih _ (sr_renderOnce c s h)

theorem sr_doSet (c : HookConfig) (b : Bool) (s : HState)
    (h : s.shouldRender = true) : (doSet c b s).shouldRender = true := by
  cases hm : s.mounted <;> simp [doSet, hm, render]
  · exact h
  · exact sr_doRender c 3 _ h

theorem sr_runRafCb (c : HookConfig) (cb : RafCb) (s : HState) :
    (runRafCb c cb s).shouldRender = s.shouldRender := by
  cases cb with
  | chainStart => rfl
  | chainEnd => cases hb : s.elementBound <;> simp [runRafCb, hb, emit]

theorem sr_foldRaf (c : HookConfig) (q : List RafCb) (s : HState) :
    (q.foldl (fun acc cb => runRafCb c cb acc) s).shouldRender
      = s.shouldRender := by
  induction q generalizing s with
  | nil => rfl
  | cons cb rest ih => rw [List.foldl_cons, ih, sr_runRafCb]

theorem sr_doFrame (c : HookConfig) (s : HState) :
    (doFrame c s).shouldRender = s.shouldRender :=
  sr_foldRaf c s.rafq { s with rafq := [] }

theorem sr_doUnmount (s : HState) :
    (doUnmount s).shouldRender = s.shouldRender := by
  cases hm : s.mounted <;> cases hpc : s.passiveCleanup <;>
    simp [doUnmount, hm, hpc]

/-- A timer body that is not a live exit timer preserves
`shouldRender = true`. -/
theorem sr_fireTimerBody (c : HookConfig) (tm : PTimer) (s : HState)
    (h : s.shouldRender = true)
    (hk : tm.kind = .enteredT ∨ s.isMounted = false) :
    (fireTimerBody c tm s).shouldRender = true := by
  cases tk : tm.kind with
  | exitT =>
      cases hk with
      | inl hk2 => rw [tk] at hk2; cases hk2
      | inr hm => rw [torn_fireTimerBody c tm s hm]; exact h
  | enteredT =>
      cases hm : s.isMounted <;> simp [fireTimerBody, tk, hm, emit] <;>
        exact h

/-- **C3, counterexample.**  Early preemption (setter(true) at t=0,
setter(false) at t=5 before any paint frame, frames at t=16/32, a frame
at t=310): after the t=310 frame the state has Presence already false —
`onExited` was emitted at t=305 — while the superseded enter transition
is still in flight: its `onEntered` timer is still pending and fires at
t=332 once the run is drained.  So Presence is NOT true whenever an
enter animation is in flight, refuting the claimed invariant. -/
theorem presence_false_while_enter_in_flight :
    (processInputs cfgFade inputsEarly (initState cfgFade false)).shouldRender
      = false ∧
    ((processInputs cfgFade inputsEarly (initState cfgFade false)).tasks.map
      (fun tm => tm.kind)) = [.enteredT] ∧
    ((processInputs cfgFade inputsEarly
        (initState cfgFade false)).events)[8]? = some (.onExited 305) ∧
    ((finish cfgFade (processInputs cfgFade inputsEarly
        (initState cfgFade false))).events)[9]? = some (.onEntered 332) := by
  refine ⟨by decide, by decide, by decide, by decide⟩

/-- **C3, amended.**  Presence transitions from true to false only when
an exit duration timer fires with the Liveness flag still true: no
setter call, paint frame or teardown ever clears Presence (conjuncts
1-3), and a timer step that clears Presence is necessarily an exit timer
firing while Liveness is true (conjunct 4); exit timers are scheduled to
fire exactly `duration` ms after the exit began (conjunct 5, the exit
effect's postcondition), so Presence never becomes false mid-exit.
However — per the counterexample — a superseded enter transition's
deferred work does not keep Presence true: its frame callbacks and
`onEntered` timer may stay pending and fire after Presence is false. -/
theorem presence_drops_only_via_live_exit_timer :
    (∀ (c : HookConfig) (b : Bool) (s : HState),
      s.shouldRender = true → (doSet c b s).shouldRender = true) ∧
    (∀ (c : HookConfig) (s : HState),
      (doFrame c s).shouldRender = s.shouldRender) ∧
    (∀ s : HState, (doUnmount s).shouldRender = s.shouldRender) ∧
    (∀ (c : HookConfig) (tm : PTimer) (s : HState),
      s.shouldRender = true → (fireOne c tm s).shouldRender = false →
      tm.kind = .exitT ∧ s.isMounted = true) ∧
    (∀ (c : HookConfig) (s : HState),
      ¬s.prevVisDeps = some s.isVisible →
      s.isVisible = false → s.shouldRender = true →
      s.elementBound = true → s.passiveCleanup = none →
      (runVisEffect c s).tasks =
        s.tasks ++ [⟨s.nextId, s.time + c.duration, .exitT⟩]) := by
  refine ⟨sr_doSet, sr_doFrame, sr_doUnmount, ?_, ?_⟩
  · intro c tm s h1 h2
    unfold fireOne at h2
    by_cases hp : (s.tasks.any (fun t => t.id = tm.id)) = true
    · rw [if_pos hp] at h2
      cases tk : tm.kind with
      | exitT =>
          cases hm : s.isMounted with
          | true => exact ⟨rfl, rfl⟩
          | false =>
              exfalso
              have e := sr_fireTimerBody c tm
                { s with tasks := s.tasks.filter (fun t => t.id ≠ tm.id),
                         time := tm.fireAt } h1 (Or.inr hm)
              rw [e] at h2
              exact Bool.noConfusion h2
      | enteredT =>
          exfalso
          have e := sr_fireTimerBody c tm
            { s with tasks := s.tasks.filter (fun t => t.id ≠ tm.id),
                     time := tm.fireAt } h1 (Or.inl tk)
          rw [e] at h2
          exact Bool.noConfusion h2
    · rw [if_neg hp, h1] at h2
      exact Bool.noConfusion h2
  · intro c s hd hv hr hb hpc
    rw [exit_effect_starts c s hd hv hr hb hpc]

/-- Witness for C3 (amended): a timer step that clears Presence at a
concrete Exiting state is an exit timer firing with Liveness true. -/
theorem presence_drops_only_via_live_exit_timer_witness :
    PTimer.kind ⟨0, 100, .exitT⟩ = .exitT ∧
    ({ time := 0, mounted := true, isVisible := false, shouldRender := true,
       isMounted := true, elementBound := false, mountEffectRan := true,
       prevVisDeps := some false, prevLayoutDeps := some (true, false),
       passiveCleanup := some 0, tasks := [⟨0, 100, .exitT⟩], rafq := [],
       nextId := 1, events := [] } : HState).isMounted = true :=
  presence_drops_only_via_live_exit_timer.2.2.2.1 cfgFade ⟨0, 100, .exitT⟩
    { time := 0, mounted := true, isVisible := false, shouldRender := true,
      isMounted := true, elementBound := false, mountEffectRan := true,
      prevVisDeps := some false, prevLayoutDeps := some (true, false),
      passiveCleanup := some 0, tasks := [⟨0, 100, .exitT⟩], rafq := [],
      nextId := 1, events := [] } rfl (by decide)

/-! ## Claim C9: setting the intent to its settled value is a no-op -/

/-- A settled state: the instance is mounted, no timer or frame callback
is pending, Presence agrees with the intent, and both effects have
already run for the current dependency values. -/
def Settled (c : HookConfig) (s : HState) : Prop :=
  s.mounted = true ∧ s.mountEffectRan = true ∧ s.tasks = [] ∧
  s.rafq = [] ∧ s.shouldRender = s.isVisible ∧
  s.prevVisDeps = some s.isVisible ∧
  s.prevLayoutDeps = some (s.shouldRender, s.isVisible) ∧
  s.elementBound = (s.shouldRender && c.bindRef)

theorem commit_settled (c : HookConfig) (s : HState)
    (h8 : s.elementBound = (s.shouldRender && c.bindRef)) :
    commit c s = s := by
  rw [commit, ← h8]

theorem renderOnce_settled (c : HookConfig) (s : HState)
    (h : Settled c s) : renderOnce c s = s := by
  obtain ⟨h1, h2, h3, h4, h5, h6, h7, h8⟩ := h
  have hl : runLayoutEffect c s = s := by
    simp only [runLayoutEffect, if_pos h7]
  have hm : runMountEffect s = s := by
    simp only [runMountEffect, if_pos h2]
  have hv : runVisEffect c s = s := by
    simp only [runVisEffect, if_pos h6]
  show runVisEffect c (runMountEffect (runLayoutEffect c (commit c s))) = s
  rw [commit_settled c s h8, hl, hm, hv]

theorem render_settled (c : HookConfig) (s : HState) (h : Settled c s) :
    render c s = s := by
  show doRender c 3 s = s
  have e := renderOnce_settled c s h
  simp [doRender, e]

theorem doSet_settled (c : HookConfig) (s : HState) (h : Settled c s) :
    doSet c s.isVisible s = s := by
  show (if s.mounted = true then render c { s with isVisible := s.isVisible }
        else s) = s
  rw [if_pos h.1]
  exact render_settled c s h

/-- **C9.**  For every settled state, setting the visibility intent to
its current settled value is a no-op: processing `set s.isVisible`
leaves the state unchanged except for the clock — in particular no new
timer is scheduled (`tasks` stays empty), no frame callback is scheduled
(`rafq` stays empty), and no lifecycle callback is invoked a second time
(the event trace is unchanged): the effect dependencies `[isVisible]`
and `[shouldRender, isVisible]` are unchanged, so neither effect
re-runs. -/
theorem settled_set_same_intent_noop (c : HookConfig) (s : HState) (t : Nat)
    (h : Settled c s) :
    stepInput c s (t, .set s.isVisible) = { s with time := t } ∧
    (stepInput c s (t, .set s.isVisible)).events = s.events ∧
    (stepInput c s (t, .set s.isVisible)).tasks = [] ∧
    (stepInput c s (t, .set s.isVisible)).rafq = [] := by
  have hs : Settled c ({ s with time := t } : HState) :=
    ⟨h.1, h.2.1, h.2.2.1, h.2.2.2.1, h.2.2.2.2.1, h.2.2.2.2.2.1,
     h.2.2.2.2.2.2.1, h.2.2.2.2.2.2.2⟩
  have main : stepInput c s (t, .set s.isVisible) = { s with time := t } := by
    calc stepInput c s (t, .set s.isVisible)
        = doSet c s.isVisible
            { drainList c (sortT (dueBefore t s.tasks)) s with time := t } :=
          rfl
      _ = doSet c s.isVisible { s with time := t } := by
            conv_lhs => rw [h.2.2.1]
            exact rfl
      _ = { s with time := t } := doSet_settled c _ hs
  refine ⟨main, ?_, ?_, ?_⟩ <;> rw [main]
  · exact h.2.2.1
  · exact h.2.2.2.1

/-- Witness for C9: a concrete settled `Entered` state; a redundant
`set true` at t=7 only moves the clock. -/
theorem settled_set_same_intent_noop_witness :
    stepInput cfgFade
      { time := 0, mounted := true, isVisible := true, shouldRender := true,
        isMounted := true, elementBound := true, mountEffectRan := true,
        prevVisDeps := some true, prevLayoutDeps := some (true, true),
        passiveCleanup := none, tasks := [], rafq := [], nextId := 0,
        events := [] } (7, .set true) =
      { time := 7, mounted := true, isVisible := true, shouldRender := true,
        isMounted := true, elementBound := true, mountEffectRan := true,
        prevVisDeps := some true, prevLayoutDeps := some (true, true),
        passiveCleanup := none, tasks := [], rafq := [], nextId := 0,
        events := [] } :=
  (settled_set_same_intent_noop cfgFade
    { time := 0, mounted := true, isVisible := true, shouldRender := true,
      isMounted := true, elementBound := true, mountEffectRan := true,
      prevVisDeps := some true, prevLayoutDeps := some (true, true),
      passiveCleanup := none, tasks := [], rafq := [], nextId := 0,
      events := [] } 7
    ⟨rfl, rfl, rfl, rfl, rfl, rfl, rfl, rfl⟩).1

end UseTransition
